import Mathlib

/-
  Verification of the executor core of rusty-workers
  (src/rusty-workers-runtime/src/executor.rs).

  The executor drives one V8 isolate on a dedicated thread: it receives fetch
  tasks over a bounded channel, dispatches them into the script via
  _dispatchEvent, drives the task to completion by waiting on an I/O waiter,
  and answers each task over a one-shot response channel.

  Shallow embedding: the host-side control flow of executor.rs is translated
  into pure Lean functions over an explicit instance state.  The embedded
  script engine (V8) is nondeterministic from the host's point of view, so the
  engine's behaviour for one task is an oracle value (`CallbackRun` for the
  host calls a script invocation performs and the exception it may leave
  pending, `Option CallbackRun` for each result of `IoWaiter::wait`).  Channel
  traffic (timer signals, response-channel sends, issued async calls) is
  recorded as an ordered event log.
-/

namespace RustyWorkers

/-- Modelled from the spec: `TerminationReason` lives in the engine crate, not
under src/.  Spec section 3: enum of Unknown, TimeLimit, MemoryLimit. -/
inductive TerminationReason where
  | unknown
  | timeLimit
  | memoryLimit
deriving DecidableEq, Repr

/-- Modelled from the spec: `ExecutionError` is defined in the shared types
crate, not under src/.  Spec section 7 taxonomy: recoverable script exception,
fatal termination for time or memory limit, IoTimeout, NoSuchWorker,
RuntimeThrowsException. -/
inductive ExecutionError where
  | noSuchWorker
  | runtimeThrowsException
  | ioTimeout
  | scriptThrowsException
  | timeLimitExceeded
  | memoryLimitExceeded
deriving DecidableEq, Repr

/-- Modelled from the spec: `ResponseObject` is defined in the shared types
crate, not under src/.  Spec sections 4.2 and 8: a response has a numeric
status plus further fields (headers, body) whose derived defaults are the
zero values. -/
structure ResponseObject where
  status : Nat
  headers : List (String × String)
  body : String
deriving DecidableEq, Repr

/-- The derived `Default::default()` value of `ResponseObject`. -/
def ResponseObject.defaultObj : ResponseObject :=
  { status := 0, headers := [], body := "" }

/-- Rust `Result<A, ExecutionError>` (= `ExecutionResult<A>` in the source). -/
inductive ExecutionResult (α : Type) where
  | ok (v : α)
  | error (e : ExecutionError)
deriving DecidableEq, Repr

/-- The payload type of the one-shot fetch response channel:
`ExecutionResult<ResponseObject>`. -/
abbrev Sent := ExecutionResult ResponseObject

/-- executor.rs `TimerControl`: the signals sent on the unbounded timer
channel toward the external time-budget actor. -/
inductive TimerControl where
  | start
  | stop
  | reset
deriving DecidableEq, Repr

/-- Modelled from the spec: the classification of an exception caught during a
task (`check_on_task` and `terminates_worker` live in the engine crate, not
under src/).  Spec sections 4.2 and 7: an exception is either an ordinary
script exception (recoverable) or derived from a forced-termination reason
(time limit or memory limit), the latter being worker-terminating. -/
inductive TaskError where
  | scriptException
  | timeLimit
  | memoryLimit
deriving DecidableEq, Repr

/-- Modelled from the spec: worker-terminating iff derived from a
forced-termination reason (spec section 4.2). -/
def TaskError.terminatesWorker : TaskError → Bool
  | .scriptException => false
  | .timeLimit => true
  | .memoryLimit => true

/-- Modelled from the spec: the `ExecutionError` carried by a caught task
exception, by its classification. -/
def TaskError.toExecutionError : TaskError → ExecutionError
  | .scriptException => .scriptThrowsException
  | .timeLimit => .timeLimitExceeded
  | .memoryLimit => .memoryLimitExceeded

/-- Modelled from the spec: the description of an asynchronous service call
(the concrete type lives in the interface module, not under src/); its
internal structure is irrelevant to the executor, so it is kept opaque as a
string. -/
abbrev AsyncCall := String

/-- executor.rs `SyncCall` as dispatched by `call_service_callback`:
Log, Done, SendFetchResponse. -/
inductive SyncCall where
  | log (s : String)
  | done
  | sendFetchResponse (res : ResponseObject)
deriving DecidableEq, Repr

/-- executor.rs `ServiceCall`: a sync call or an async call (the async
callback function reference is script-side data and is not modelled). -/
inductive ServiceCall where
  | sync (c : SyncCall)
  | async (c : AsyncCall)
deriving DecidableEq, Repr

/-- Observable events of one executor run, in program order:
timer-channel signals, sends on the one-shot fetch response channel, the
execution thread entering and leaving the blocking `IoWaiter::wait`,
script-callback invocations, and async calls issued to the I/O waiter. -/
inductive Ev where
  | timer (t : TimerControl)
  | sent (v : Sent)
  | ioWaitEnter
  | ioWaitExit (completed : Bool)
  | invoke
  | issued (c : AsyncCall)
deriving DecidableEq, Repr

/-- The fields of executor.rs `InstanceState` that carry control state.
The remaining fields (tokio handle, runtime reference, script text, config,
worker handle) are opaque resources with no bearing on control flow; the
channels themselves are represented by the event log.  `fetch_response_channel`
records whether the one-shot sender is currently held (`Option` in the
source); `io_waiter` records whether an `IoWaiter` is installed;
`pendingException` is the state of the per-task V8 `TryCatch` scope. -/
structure InstanceState where
  io_waiter : Bool
  done : Bool
  fetch_response_channel : Bool
  pendingException : Option TaskError
deriving DecidableEq, Repr

/-- executor.rs `InstanceState::try_send_fetch_response`: take the one-shot
sender out of the state if present and send on it; report whether a send
happened.  (The receiving half is held by the awaiting `fetch` caller and is
alive, so `ch.send(res).is_ok()` is true exactly when a sender was held.) -/
def InstanceState.try_send_fetch_response (s : InstanceState) (res : Sent) :
    InstanceState × List Ev × Bool :=
  if s.fetch_response_channel then
    ({ s with fetch_response_channel := false }, [.sent res], true)
  else
    (s, [], false)

/-- executor.rs `InstanceState::io_waiter` (the checked accessor): the error
message of the `JsError` raised when no I/O waiter is installed. -/
def InstanceState.io_waiter_err (s : InstanceState) : Option String :=
  if s.io_waiter then none else some "io service not available"

/-- executor.rs `call_service_callback`: dispatch on the decoded service
call.  Returns the updated state, the emitted events, and the message of the
script-visible error, if any (raised by `wrap_callback` as a JS exception). -/
def call_service_callback (s : InstanceState) (call : ServiceCall) :
    InstanceState × List Ev × Option String :=
  match call with
  | .sync (.log _) => (s, [], none)
  | .sync .done => ({ s with done := true }, [], none)
  | .sync (.sendFetchResponse res) =>
      let r := s.try_send_fetch_response (.ok res)
      (r.1, r.2.1, none)
  | .async c =>
      match s.io_waiter_err with
      | some msg => (s, [], some msg)
      | none => (s, [.issued c], none)

/-- One script-callback invocation, as seen by the host: the sequence of
host calls the script performs during it, and the exception (if any) left
pending in the `TryCatch` scope when it returns.  This is the oracle for one
`callback.call` (or the `_dispatchEvent` call). -/
structure CallbackRun where
  calls : List ServiceCall
  throws : Option TaskError
deriving DecidableEq, Repr

/-- Effect of a sequence of host calls on the instance state.  A host-call
error is thrown into the running script, which may catch it; whether the
script continues making calls is its own business, so the oracle list already
reflects the calls actually made. -/
def run_calls (s : InstanceState) (cs : List ServiceCall) :
    InstanceState × List Ev :=
  match cs with
  | [] => (s, [])
  | c :: rest =>
      let r1 := call_service_callback s c
      let r2 := run_calls r1.1 rest
      (r2.1, r1.2.1 ++ r2.2)

/-- Effect of one script-callback invocation: the `.invoke` event, the host
calls it performs, and the exception it may leave pending. -/
def run_callback (s : InstanceState) (cb : CallbackRun) :
    InstanceState × List Ev :=
  let r := run_calls s cb.calls
  (match cb.throws with
   | some e => { r.1 with pendingException := some e }
   | none => r.1,
   Ev.invoke :: r.2)

/-- executor.rs line 341: the response synthesized when the drain loop exits
without an explicit response: `ResponseObject { status: 500, ..Default::default() }`. -/
def default_500_response : ResponseObject :=
  { ResponseObject.defaultObj with status := 500 }

/-- The code after the drain loop (executor.rs lines 338-345): try to send
the synthesized status-500 response (a no-op when a response was already
sent, since `try_send_fetch_response` took the sender then). -/
def task_epilogue (s : InstanceState) : InstanceState × List Ev :=
  let r := s.try_send_fetch_response (.ok default_500_response)
  (r.1, r.2.1)

/-- How one pass through the drain loop body (or the whole task) ends, from
the point of view of `Instance::run`. -/
inductive Outcome where
  | ready
  | fatal (e : ExecutionError)
  | otherError (msg : String)
  | incomplete
deriving DecidableEq, Repr

/-- executor.rs lines 284-345, the `Drive to completion` loop.  Each
iteration: check the pending exception (`check_on_task`); a worker-terminating
exception attempts to deliver itself as the fetch response and returns a fatal
`Execution` error; a recoverable one resets the `TryCatch`, delivers itself,
and breaks out (through the status-500 epilogue) back to the ready state.
Otherwise, if the script set `done`, break out through the epilogue.
Otherwise stop the timer and block on `IoWaiter::wait`: `None` delivers
`IoTimeout` and is fatal; a completed callback restarts the timer and is
invoked, consuming one oracle entry.  The `ios` oracle lists the successive
results of `wait`; an exhausted oracle ends the embedding with `.incomplete`
(an artifact of the finite trace, not a behaviour of the code). -/
def drain_loop (s : InstanceState) (ios : List (Option CallbackRun)) :
    InstanceState × List Ev × Outcome :=
  match s.pendingException with
  | some e =>
      if e.terminatesWorker then
        let r := s.try_send_fetch_response (.error e.toExecutionError)
        (r.1, r.2.1, .fatal e.toExecutionError)
      else
        let s0 : InstanceState := { s with pendingException := none }
        let r := s0.try_send_fetch_response (.error e.toExecutionError)
        let ep := task_epilogue r.1
        (ep.1, r.2.1 ++ ep.2, .ready)
  | none =>
      if s.done then
        let ep := task_epilogue s
        (ep.1, ep.2, .ready)
      else
        match ios with
        | [] => (s, [Ev.timer .stop, Ev.ioWaitEnter], .incomplete)
        | none :: _ =>
            let r := s.try_send_fetch_response (.error .ioTimeout)
            (r.1,
             [Ev.timer .stop, Ev.ioWaitEnter, Ev.ioWaitExit false] ++ r.2.1,
             .fatal .ioTimeout)
        | some cb :: rest =>
            let r1 := run_callback s cb
            let r2 := drain_loop r1.1 rest
            (r2.1,
             [Ev.timer .stop, Ev.ioWaitEnter, Ev.ioWaitExit true,
              Ev.timer .start] ++ r1.2 ++ r2.2.1,
             r2.2.2)

/-- The engine-side oracle for one task: whether the `_dispatchEvent` global
lookup succeeded (`global.get(..).check()`), whether its conversion to a
function succeeded (`Local::<Function>::try_from`), the behaviour of the
dispatch invocation, and the successive `IoWaiter::wait` results. -/
structure TaskSpec where
  dispatch_found : Bool
  dispatch_is_function : Bool
  dispatch_run : CallbackRun
  io_events : List (Option CallbackRun)
deriving DecidableEq, Repr

/-- executor.rs `InstanceState::populate_with_task`: record the task's
one-shot response sender into the state. -/
def populate_with_task (s : InstanceState) : InstanceState :=
  { s with fetch_response_channel := true }

/-- executor.rs lines 261-345: handling of one received task.  Record the
response sender, start the timer, install a fresh `IoWaiter`, look up and
convert `_dispatchEvent` (failure propagates a `GenericError::Other` out of
`run`, before anything is sent on the response channel), invoke it, and run
the drain loop. -/
def run_task (s : InstanceState) (t : TaskSpec) :
    InstanceState × List Ev × Outcome :=
  let s1 := populate_with_task s
  let s2 : InstanceState := { s1 with io_waiter := true }
  if t.dispatch_found = false then
    (s2, [Ev.timer .start], .otherError "check failed")
  else if t.dispatch_is_function = false then
    (s2, [Ev.timer .start], .otherError "bad _dispatchEvent")
  else
    let r1 := run_callback s2 t.dispatch_run
    let r2 := drain_loop r1.1 t.io_events
    (r2.1, Ev.timer .start :: (r1.2 ++ r2.2.1), r2.2.2)

/-- executor.rs lines 241-252, the top of each outer-loop iteration: stop and
reset the timer, drop any residual I/O waiter, clear the done flag.  A fresh
`TryCatch` scope is created for the iteration, so no exception is pending. -/
def ready_prelude (s : InstanceState) : InstanceState × List Ev :=
  ({ s with io_waiter := false, done := false, pendingException := none },
   [Ev.timer .stop, Ev.timer .reset])

/-- How `Instance::run` itself returns. -/
inductive RunResult where
  | shutdown
  | execError (e : ExecutionError)
  | otherError (msg : String)
  | incomplete
deriving DecidableEq, Repr

/-- executor.rs lines 240-347, the outer task loop of `Instance::run`: each
iteration runs the ready prelude and blocks on the task channel; `none` in
the oracle is channel closure (clean shutdown, `Ok(())`); a task outcome of
`.ready` continues the loop, a fatal outcome returns
`Err(GenericError::Execution e)`, a dispatch failure returns
`Err(GenericError::Other msg)`. -/
def instance_loop (s : InstanceState) (tasks : List (Option TaskSpec)) :
    InstanceState × List Ev × RunResult :=
  match tasks with
  | [] => (s, [], .incomplete)
  | none :: _ =>
      let p := ready_prelude s
      (p.1, p.2, .shutdown)
  | some t :: rest =>
      let p := ready_prelude s
      let r := run_task p.1 t
      match r.2.2 with
      | .ready =>
          let r2 := instance_loop r.1 rest
          (r2.1, p.2 ++ r.2.1 ++ r2.2.1, r2.2.2)
      | .fatal e => (r.1, p.2 ++ r.2.1, .execError e)
      | .otherError m => (r.1, p.2 ++ r.2.1, .otherError m)
      | .incomplete => (r.1, p.2 ++ r.2.1, .incomplete)

/-- executor.rs `InstanceHandle::fetch` (lines 91-110): `send_ok` is whether
the send on the bounded task channel succeeded (it fails iff the receiving
instance has terminated), `recv` is the value received on the one-shot
response channel (`none` when the sender was dropped without sending). -/
def fetch (send_ok : Bool) (recv : Option Sent) : Sent :=
  if send_ok = false then .error .noSuchWorker
  else
    match recv with
    | some res => res
    | none => .error .runtimeThrowsException

/-- executor.rs line 16: `const SAFE_AREA_SIZE: usize = 1048576`. -/
def SAFE_AREA_SIZE : Nat := 1048576

/-- The isolate-slot state read and written by the near-heap-limit callback:
the `DoubleMleGuard` flag, the shared termination-reason cell, and whether
`terminate_execution` has been requested on the isolate. -/
structure MemIsolateState where
  triggered_mle : Bool
  termination_reason : TerminationReason
  termination_requested : Bool
deriving DecidableEq, Repr

/-- Modelled from the spec: `terminate_with_reason` lives in the engine
crate, not under src/.  Spec sections 4.3 and 9: store the reason into the
shared termination-reason cell and request forced termination of the
engine. -/
def terminate_with_reason (s : MemIsolateState) (r : TerminationReason) :
    MemIsolateState :=
  { s with termination_reason := r, termination_requested := true }

/-- executor.rs `on_memory_limit_exceeded` (lines 417-433): on the first
trigger set the double-MLE guard and terminate with reason MemoryLimit; a
repeated trigger only logs; in both cases return
`current_heap_limit + SAFE_AREA_SIZE`. -/
def on_memory_limit_exceeded (s : MemIsolateState) (current_heap_limit : Nat) :
    MemIsolateState × Nat :=
  if s.triggered_mle then
    (s, current_heap_limit + SAFE_AREA_SIZE)
  else
    let s1 : MemIsolateState := { s with triggered_mle := true }
    let s2 := terminate_with_reason s1 .memoryLimit
    (s2, current_heap_limit + SAFE_AREA_SIZE)

/- Observation helpers over event logs. -/

/-- The values sent on the one-shot fetch response channel, in order. -/
def sentValues (evs : List Ev) : List Sent :=
  evs.filterMap (fun e => match e with | .sent v => some v | _ => none)

/-- Number of sends on the one-shot fetch response channel. -/
def sentCount (evs : List Ev) : Nat := (sentValues evs).length

/-- Whether the one-shot sender is still held: 1 if so, else 0. -/
def chanWeight (s : InstanceState) : Nat :=
  if s.fetch_response_channel then 1 else 0

/-- A value is deliverable by the execution loop: the loop never sends
`NoSuchWorker` or `RuntimeThrowsException` on the response channel (those two
are produced only by `fetch` itself). -/
def deliverable : Sent → Bool
  | .error .noSuchWorker => false
  | .error .runtimeThrowsException => false
  | _ => true

/-- Fold step tracking the most recent timer-channel signal. -/
def nextTimer (c : Option TimerControl) (e : Ev) : Option TimerControl :=
  match e with
  | .timer t => some t
  | _ => c

/-- The most recent timer-channel signal after the events `evs`, starting
from a prior signal `c`. -/
def lastTimerFrom (c : Option TimerControl) (evs : List Ev) :
    Option TimerControl :=
  evs.foldl nextTimer c

/-- Whether the external budget timer is in the started state after `evs`,
from a prior running-state `r` (Start and Stop toggle it; Reset only clears
the accumulated time). -/
def timerRunningFrom (r : Bool) (evs : List Ev) : Bool :=
  evs.foldl
    (fun acc e =>
      match e with
      | .timer .start => true
      | .timer .stop => false
      | _ => acc) r

/-- The event is the execution thread entering the blocking wait. -/
def Ev.isWaitEnter : Ev → Bool
  | .ioWaitEnter => true
  | _ => false

/-- The event is a script-callback invocation. -/
def Ev.isInvoke : Ev → Bool
  | .invoke => true
  | _ => false

/-- Every event satisfying `isTarget` in the log is reached with `want` as
the most recent timer-channel signal (starting from prior signal `c`). -/
def guardedBy (isTarget : Ev → Bool) (want : TimerControl)
    (c : Option TimerControl) : List Ev → Bool
  | [] => true
  | e :: rest =>
      (!isTarget e || c == some want) && guardedBy isTarget want (nextTimer c e) rest

/- Helper lemmas. -/

theorem sentValues_append (a b : List Ev) :
    sentValues (a ++ b) = sentValues a ++ sentValues b := by
  simp [sentValues]

theorem sentCount_append (a b : List Ev) :
    sentCount (a ++ b) = sentCount a + sentCount b := by
  simp [sentCount, sentValues_append]

theorem chanWeight_pending (s : InstanceState) (p : Option TaskError) :
    chanWeight { s with pendingException := p } = chanWeight s := rfl

theorem try_send_events (s : InstanceState) (res : Sent) :
    (s.try_send_fetch_response res).2.1
      = if s.fetch_response_channel then [Ev.sent res] else [] := by
  unfold InstanceState.try_send_fetch_response
  by_cases hc : s.fetch_response_channel <;> simp [hc]

theorem try_send_state (s : InstanceState) (res : Sent) :
    (s.try_send_fetch_response res).1
      = { s with fetch_response_channel := false } := by
  cases s with
  | mk iw dn ch pe =>
      by_cases hc : ch <;> simp_all [InstanceState.try_send_fetch_response]

theorem try_send_mem_sent {s : InstanceState} {res v : Sent}
    (h : Ev.sent v ∈ (s.try_send_fetch_response res).2.1) : v = res := by
  rw [try_send_events] at h
  by_cases hc : s.fetch_response_channel
  · simp [hc] at h; exact h
  · simp [hc] at h

theorem try_send_weight (s : InstanceState) (res : Sent) :
    chanWeight s = sentCount (s.try_send_fetch_response res).2.1
      + chanWeight (s.try_send_fetch_response res).1 := by
  rw [try_send_events, try_send_state]
  by_cases hc : s.fetch_response_channel <;>
    simp [hc, chanWeight, sentCount, sentValues]

theorem task_epilogue_events (s : InstanceState) :
    (task_epilogue s).2
      = if s.fetch_response_channel then [Ev.sent (.ok default_500_response)]
        else [] := by
  unfold task_epilogue
  exact try_send_events s (.ok default_500_response)

theorem task_epilogue_state (s : InstanceState) :
    (task_epilogue s).1 = { s with fetch_response_channel := false } := by
  unfold task_epilogue
  exact try_send_state s (.ok default_500_response)

theorem task_epilogue_mem_sent {s : InstanceState} {v : Sent}
    (h : Ev.sent v ∈ (task_epilogue s).2) : v = .ok default_500_response := by
  unfold task_epilogue at h
  exact try_send_mem_sent h

theorem task_epilogue_weight (s : InstanceState) :
    chanWeight s = sentCount (task_epilogue s).2 + chanWeight (task_epilogue s).1 := by
  unfold task_epilogue
  exact try_send_weight s (.ok default_500_response)

theorem deliverable_taskError (e : TaskError) :
    deliverable (.error e.toExecutionError) = true := by
  cases e <;> rfl

theorem deliverable_ne {v : Sent} (h : deliverable v = true) :
    v ≠ .error .noSuchWorker ∧ v ≠ .error .runtimeThrowsException := by
  cases v with
  | ok r => simp
  | error e => cases e <;> simp_all [deliverable]

theorem call_service_mem_sent {s : InstanceState} {c : ServiceCall} {v : Sent}
    (h : Ev.sent v ∈ (call_service_callback s c).2.1) : deliverable v = true := by
  cases c with
  | sync sc =>
      cases sc with
      | log t => simp [call_service_callback] at h
      | done => simp [call_service_callback] at h
      | sendFetchResponse res =>
          simp only [call_service_callback] at h
          have hv := try_send_mem_sent h
          subst hv
          rfl
  | async c =>
      by_cases hw : s.io_waiter <;>
        simp [call_service_callback, InstanceState.io_waiter_err, hw] at h

theorem call_service_weight (s : InstanceState) (c : ServiceCall) :
    chanWeight s = sentCount (call_service_callback s c).2.1
      + chanWeight (call_service_callback s c).1 := by
  cases c with
  | sync sc =>
      cases sc with
      | log t => simp [call_service_callback, sentCount, sentValues]
      | done => simp [call_service_callback, sentCount, sentValues, chanWeight]
      | sendFetchResponse res =>
          simpa only [call_service_callback] using try_send_weight s (.ok res)
  | async c =>
      by_cases hw : s.io_waiter <;>
        simp [call_service_callback, InstanceState.io_waiter_err, hw,
          sentCount, sentValues]

theorem run_calls_mem_sent :
    ∀ (cs : List ServiceCall) (s : InstanceState) (v : Sent),
      Ev.sent v ∈ (run_calls s cs).2 → deliverable v = true := by
  intro cs
  induction cs with
  | nil => intro s v h; simp [run_calls] at h
  | cons c rest ih =>
      intro s v h
      simp only [run_calls, List.mem_append] at h
      cases h with
      | inl h => exact call_service_mem_sent h
      | inr h => exact ih _ _ h

theorem run_calls_weight :
    ∀ (cs : List ServiceCall) (s : InstanceState),
      chanWeight s = sentCount (run_calls s cs).2 + chanWeight (run_calls s cs).1 := by
  intro cs
  induction cs with
  | nil => intro s; simp [run_calls, sentCount, sentValues]
  | cons c rest ih =>
      intro s
      have h1 := call_service_weight s c
      have h2 := ih (call_service_callback s c).1
      simp only [run_calls, sentCount_append]
      omega

theorem run_callback_events (s : InstanceState) (cb : CallbackRun) :
    (run_callback s cb).2 = Ev.invoke :: (run_calls s cb.calls).2 := by
  unfold run_callback
  cases cb.throws <;> rfl

theorem run_callback_mem_sent {s : InstanceState} {cb : CallbackRun} {v : Sent}
    (h : Ev.sent v ∈ (run_callback s cb).2) : deliverable v = true := by
  rw [run_callback_events] at h
  simp only [List.mem_cons] at h
  cases h with
  | inl h => exact absurd h (by simp)
  | inr h => exact run_calls_mem_sent cb.calls s v h

theorem run_callback_weight (s : InstanceState) (cb : CallbackRun) :
    chanWeight s = sentCount (run_callback s cb).2 + chanWeight (run_callback s cb).1 := by
  have h1 := run_calls_weight cb.calls s
  unfold run_callback
  cases h : cb.throws with
  | none =>
      simpa [sentCount, sentValues] using h1
  | some e =>
      simp only [h]
      have : chanWeight { (run_calls s cb.calls).1 with pendingException := some e }
          = chanWeight (run_calls s cb.calls).1 := rfl
      rw [this]
      simpa [sentCount, sentValues] using h1

/- Unfolding equations for the branches of the drain loop. -/

theorem drain_loop_fatal_eq (s : InstanceState) (ios : List (Option CallbackRun))
    (e : TaskError) (hpe : s.pendingException = some e)
    (ht : e.terminatesWorker = true) :
    drain_loop s ios
      = ((s.try_send_fetch_response (.error e.toExecutionError)).1,
         (s.try_send_fetch_response (.error e.toExecutionError)).2.1,
         .fatal e.toExecutionError) := by
  cases s with
  | mk iw dn ch pe =>
      simp only at hpe
      subst hpe
      cases e with
      | scriptException => simp [TaskError.terminatesWorker] at ht
      | timeLimit =>
          cases ios with
          | nil => rfl
          | cons io tl => cases io <;> rfl
      | memoryLimit =>
          cases ios with
          | nil => rfl
          | cons io tl => cases io <;> rfl

theorem drain_loop_recoverable_eq (s : InstanceState)
    (ios : List (Option CallbackRun)) (e : TaskError)
    (hpe : s.pendingException = some e) (ht : e.terminatesWorker = false) :
    drain_loop s ios
      = ((task_epilogue
            (InstanceState.try_send_fetch_response { s with pendingException := none }
              (.error e.toExecutionError)).1).1,
         (InstanceState.try_send_fetch_response { s with pendingException := none }
            (.error e.toExecutionError)).2.1
           ++ (task_epilogue
                (InstanceState.try_send_fetch_response
                  { s with pendingException := none }
                  (.error e.toExecutionError)).1).2,
         .ready) := by
  cases s with
  | mk iw dn ch pe =>
      simp only at hpe
      subst hpe
      cases e with
      | scriptException =>
          cases ios with
          | nil => rfl
          | cons io tl => cases io <;> rfl
      | timeLimit => simp [TaskError.terminatesWorker] at ht
      | memoryLimit => simp [TaskError.terminatesWorker] at ht

theorem drain_loop_done_eq (s : InstanceState) (ios : List (Option CallbackRun))
    (hpe : s.pendingException = none) (hd : s.done = true) :
    drain_loop s ios = ((task_epilogue s).1, (task_epilogue s).2, .ready) := by
  cases s with
  | mk iw dn ch pe =>
      simp only at hpe hd
      subst hpe
      subst hd
      cases ios with
      | nil => rfl
      | cons io tl => cases io <;> rfl

theorem drain_loop_nil_eq (s : InstanceState)
    (hpe : s.pendingException = none) (hd : s.done = false) :
    drain_loop s [] = (s, [Ev.timer .stop, Ev.ioWaitEnter], .incomplete) := by
  cases s with
  | mk iw dn ch pe =>
      simp only at hpe hd
      subst hpe
      subst hd
      rfl

theorem drain_loop_timeout_eq (s : InstanceState)
    (tail : List (Option CallbackRun))
    (hpe : s.pendingException = none) (hd : s.done = false) :
    drain_loop s (none :: tail)
      = ((s.try_send_fetch_response (.error .ioTimeout)).1,
         [Ev.timer .stop, Ev.ioWaitEnter, Ev.ioWaitExit false]
           ++ (s.try_send_fetch_response (.error .ioTimeout)).2.1,
         .fatal .ioTimeout) := by
  cases s with
  | mk iw dn ch pe =>
      simp only at hpe hd
      subst hpe
      subst hd
      rfl

theorem drain_loop_callback_eq (s : InstanceState) (cb : CallbackRun)
    (rest : List (Option CallbackRun))
    (hpe : s.pendingException = none) (hd : s.done = false) :
    drain_loop s (some cb :: rest)
      = ((drain_loop (run_callback s cb).1 rest).1,
         [Ev.timer .stop, Ev.ioWaitEnter, Ev.ioWaitExit true, Ev.timer .start]
           ++ ((run_callback s cb).2
             ++ (drain_loop (run_callback s cb).1 rest).2.1),
         (drain_loop (run_callback s cb).1 rest).2.2) := by
  cases s with
  | mk iw dn ch pe =>
      simp only at hpe hd
      subst hpe
      subst hd
      rfl

/-- The state in which the drain loop starts for a dispatched task: the
response sender recorded and a fresh I/O waiter installed. -/
theorem run_task_eq_of_dispatch (s : InstanceState) (t : TaskSpec)
    (h1 : t.dispatch_found = true) (h2 : t.dispatch_is_function = true) :
    run_task s t
      = ((drain_loop
            (run_callback
              { s with io_waiter := true, fetch_response_channel := true }
              t.dispatch_run).1 t.io_events).1,
         Ev.timer .start ::
           ((run_callback
              { s with io_waiter := true, fetch_response_channel := true }
              t.dispatch_run).2
             ++ (drain_loop
                  (run_callback
                    { s with io_waiter := true, fetch_response_channel := true }
                    t.dispatch_run).1 t.io_events).2.1),
         (drain_loop
            (run_callback
              { s with io_waiter := true, fetch_response_channel := true }
              t.dispatch_run).1 t.io_events).2.2) := by
  cases t with
  | mk df dif dr ioe =>
      simp only at h1 h2
      subst h1
      subst h2
      rfl

theorem drain_loop_mem_sent :
    ∀ (s : InstanceState) (ios : List (Option CallbackRun)) (v : Sent),
      Ev.sent v ∈ (drain_loop s ios).2.1 → deliverable v = true := by
  intro s ios
  induction s, ios using drain_loop.induct with
  | case1 t s e hpe ht =>
      intro v h
      rw [drain_loop_fatal_eq s t e hpe ht] at h
      have hv := try_send_mem_sent h
      subst hv
      exact deliverable_taskError e
  | case2 t s e hpe ht =>
      intro v h
      rw [drain_loop_recoverable_eq s t e hpe (by simpa using ht)] at h
      simp only [List.mem_append] at h
      cases h with
      | inl h =>
          have hv := try_send_mem_sent h
          subst hv
          exact deliverable_taskError e
      | inr h =>
          have hv := task_epilogue_mem_sent h
          subst hv
          rfl
  | case3 t s hpe hd =>
      intro v h
      rw [drain_loop_done_eq s t hpe hd] at h
      have hv := task_epilogue_mem_sent h
      subst hv
      rfl
  | case4 s hpe hd =>
      intro v h
      rw [drain_loop_nil_eq s hpe (by simpa using hd)] at h
      simp at h
  | case5 s hpe hd tail =>
      intro v h
      rw [drain_loop_timeout_eq s tail hpe (by simpa using hd)] at h
      simp only [List.mem_append, List.mem_cons, List.not_mem_nil] at h
      rcases h with (h | h | h | h) | h
      · exact absurd h (by simp)
      · exact absurd h (by simp)
      · exact absurd h (by simp)
      · exact h.elim
      · have hv := try_send_mem_sent h
        subst hv
        rfl
  | case6 s hpe hd cb rest r1 ih =>
      intro v h
      rw [drain_loop_callback_eq s cb rest hpe (by simpa using hd)] at h
      simp only [List.mem_append, List.mem_cons, List.not_mem_nil] at h
      rcases h with (h | h | h | h | h) | h | h
      · exact absurd h (by simp)
      · exact absurd h (by simp)
      · exact absurd h (by simp)
      · exact absurd h (by simp)
      · exact h.elim
      · exact run_callback_mem_sent h
      · exact ih v h

theorem drain_loop_weight :
    ∀ (s : InstanceState) (ios : List (Option CallbackRun)),
      chanWeight s = sentCount (drain_loop s ios).2.1
        + chanWeight (drain_loop s ios).1 := by
  intro s ios
  induction s, ios using drain_loop.induct with
  | case1 t s e hpe ht =>
      rw [drain_loop_fatal_eq s t e hpe ht]
      exact try_send_weight s (.error e.toExecutionError)
  | case2 t s e hpe ht =>
      rw [drain_loop_recoverable_eq s t e hpe (by simpa using ht)]
      have h1 := try_send_weight { s with pendingException := none }
        (.error e.toExecutionError)
      have h2 := task_epilogue_weight
        (InstanceState.try_send_fetch_response { s with pendingException := none }
          (.error e.toExecutionError)).1
      rw [chanWeight_pending] at h1
      simp only [sentCount_append]
      omega
  | case3 t s hpe hd =>
      rw [drain_loop_done_eq s t hpe hd]
      exact task_epilogue_weight s
  | case4 s hpe hd =>
      rw [drain_loop_nil_eq s hpe (by simpa using hd)]
      simp [sentCount, sentValues]
  | case5 s hpe hd tail =>
      rw [drain_loop_timeout_eq s tail hpe (by simpa using hd)]
      have h1 := try_send_weight s (.error .ioTimeout)
      simp only [sentCount_append]
      have h2 : sentCount [Ev.timer .stop, Ev.ioWaitEnter, Ev.ioWaitExit false] = 0 := rfl
      omega
  | case6 s hpe hd cb rest r1 ih =>
      rw [drain_loop_callback_eq s cb rest hpe (by simpa using hd)]
      rw [show r1 = run_callback s cb from rfl] at ih
      have h1 := run_callback_weight s cb
      simp only [sentCount_append]
      have h2 : sentCount [Ev.timer .stop, Ev.ioWaitEnter, Ev.ioWaitExit true,
        Ev.timer .start] = 0 := rfl
      omega

theorem run_task_mem_sent :
    ∀ (s : InstanceState) (t : TaskSpec) (v : Sent),
      Ev.sent v ∈ (run_task s t).2.1 → deliverable v = true := by
  intro s t v h
  by_cases h1 : t.dispatch_found
  · by_cases h2 : t.dispatch_is_function
    · rw [run_task_eq_of_dispatch s t h1 h2] at h
      simp only [List.mem_cons, List.mem_append] at h
      rcases h with h | h | h
      · exact absurd h (by simp)
      · exact run_callback_mem_sent h
      · exact drain_loop_mem_sent _ _ v h
    · unfold run_task at h
      simp [h1, eq_false_of_ne_true h2] at h
  · unfold run_task at h
    simp [eq_false_of_ne_true h1] at h

theorem run_task_weight (s : InstanceState) (t : TaskSpec) :
    sentCount (run_task s t).2.1 + chanWeight (run_task s t).1 = 1 := by
  by_cases h1 : t.dispatch_found
  · by_cases h2 : t.dispatch_is_function
    · have heq := run_task_eq_of_dispatch s t h1 h2
      have hcb := run_callback_weight
        { s with io_waiter := true, fetch_response_channel := true } t.dispatch_run
      have hdl := drain_loop_weight
        (run_callback { s with io_waiter := true, fetch_response_channel := true }
          t.dispatch_run).1 t.io_events
      have hpop : chanWeight
          { s with io_waiter := true, fetch_response_channel := true } = 1 := rfl
      have hfst : (run_task s t).1
          = (drain_loop
              (run_callback
                { s with io_waiter := true, fetch_response_channel := true }
                t.dispatch_run).1 t.io_events).1 := by
        rw [heq]
      have hsnd : (run_task s t).2.1
          = Ev.timer .start ::
              ((run_callback
                  { s with io_waiter := true, fetch_response_channel := true }
                  t.dispatch_run).2
                ++ (drain_loop
                    (run_callback
                      { s with io_waiter := true, fetch_response_channel := true }
                      t.dispatch_run).1 t.io_events).2.1) := by
        rw [heq]
      have h3 : ∀ (a b : List Ev),
          sentCount (Ev.timer .start :: (a ++ b)) = sentCount a + sentCount b := by
        intro a b
        simp [sentCount, sentValues]
      rw [hfst, hsnd, h3]
      omega
    · unfold run_task
      simp [h1, eq_false_of_ne_true h2, sentCount, sentValues, chanWeight,
        populate_with_task]
  · unfold run_task
    simp [eq_false_of_ne_true h1, sentCount, sentValues, chanWeight,
      populate_with_task]

/- Timer-discipline lemmas. -/

theorem lastTimerFrom_append (c : Option TimerControl) (a b : List Ev) :
    lastTimerFrom c (a ++ b) = lastTimerFrom (lastTimerFrom c a) b := by
  simp [lastTimerFrom, List.foldl_append]

theorem guardedBy_append (p : Ev → Bool) (w : TimerControl) :
    ∀ (a b : List Ev) (c : Option TimerControl),
      guardedBy p w c (a ++ b)
        = (guardedBy p w c a && guardedBy p w (lastTimerFrom c a) b) := by
  intro a
  induction a with
  | nil => intro b c; simp [guardedBy, lastTimerFrom]
  | cons e rest ih =>
      intro b c
      show ((!p e || c == some w) && guardedBy p w (nextTimer c e) (rest ++ b))
          = (((!p e || c == some w) && guardedBy p w (nextTimer c e) rest)
              && guardedBy p w (lastTimerFrom c (e :: rest)) b)
      have h2 : lastTimerFrom c (e :: rest) = lastTimerFrom (nextTimer c e) rest := by
        simp [lastTimerFrom]
      rw [ih, h2, Bool.and_assoc]

theorem guardedBy_eq_true_iff (p : Ev → Bool) (w : TimerControl) :
    ∀ (l : List Ev) (c : Option TimerControl),
      guardedBy p w c l = true ↔
        ∀ (a : List Ev) (e : Ev) (b : List Ev),
          l = a ++ e :: b → p e = true → lastTimerFrom c a = some w := by
  intro l
  induction l with
  | nil =>
      intro c
      constructor
      · intro _ a e b h
        exact absurd h (by simp)
      · intro _; rfl
  | cons x rest ih =>
      intro c
      constructor
      · intro hg a e b heq hp
        rw [guardedBy, Bool.and_eq_true] at hg
        cases a with
        | nil =>
            simp only [List.nil_append, List.cons.injEq] at heq
            obtain ⟨h1, h2⟩ := heq
            subst h1
            have h3 := hg.1
            rw [hp] at h3
            simp only [Bool.not_true, Bool.false_or, beq_iff_eq] at h3
            simpa [lastTimerFrom] using h3
        | cons y a2 =>
            simp only [List.cons_append, List.cons.injEq] at heq
            obtain ⟨h1, h2⟩ := heq
            subst h1
            have h3 := (ih (nextTimer c x)).mp hg.2 a2 e b h2 hp
            simpa [lastTimerFrom] using h3
      · intro h
        rw [guardedBy, Bool.and_eq_true]
        constructor
        · cases hp : p x
          · simp
          · have h2 := h [] x rest rfl hp
            simp only [lastTimerFrom, List.foldl_nil] at h2
            simp [h2]
        · refine (ih (nextTimer c x)).mpr ?ta
          intro a e b heq hpe
          have h2 := h (x :: a) e b (by rw [heq]; rfl) hpe
          simpa [lastTimerFrom] using h2

theorem guardedBy_of_no_target (p : Ev → Bool) (w : TimerControl) :
    ∀ (l : List Ev) (c : Option TimerControl),
      (∀ e ∈ l, p e = false) → guardedBy p w c l = true := by
  intro l
  induction l with
  | nil => intro c _; rfl
  | cons x rest ih =>
      intro c h
      rw [guardedBy, Bool.and_eq_true]
      refine ⟨?g1, ih _ (fun e he => h e (List.mem_cons_of_mem x he))⟩
      simp [h x (List.mem_cons_self x rest)]

theorem lastTimerFrom_no_timer :
    ∀ (l : List Ev) (c : Option TimerControl),
      (∀ e ∈ l, ∀ t2, e ≠ Ev.timer t2) → lastTimerFrom c l = c := by
  intro l
  induction l with
  | nil => intro c _; rfl
  | cons x rest ih =>
      intro c h
      have hx : nextTimer c x = c := by
        cases x with
        | timer t2 => exact absurd rfl (h (Ev.timer t2) (List.mem_cons_self _ _) t2)
        | sent v => rfl
        | ioWaitEnter => rfl
        | ioWaitExit b2 => rfl
        | invoke => rfl
        | issued c2 => rfl
      have h2 : lastTimerFrom c (x :: rest) = lastTimerFrom (nextTimer c x) rest := by
        simp [lastTimerFrom]
      rw [h2, hx]
      exact ih c (fun e he t2 => h e (List.mem_cons_of_mem x he) t2)

theorem run_calls_events_shape :
    ∀ (cs : List ServiceCall) (s : InstanceState) (e : Ev),
      e ∈ (run_calls s cs).2 →
        (∃ v, e = Ev.sent v) ∨ (∃ c2, e = Ev.issued c2) := by
  intro cs
  induction cs with
  | nil => intro s e h; simp [run_calls] at h
  | cons c rest ih =>
      intro s e h
      simp only [run_calls, List.mem_append] at h
      cases h with
      | inl h =>
          cases c with
          | sync sc =>
              cases sc with
              | log t => simp [call_service_callback] at h
              | done => simp [call_service_callback] at h
              | sendFetchResponse res =>
                  simp only [call_service_callback] at h
                  rw [try_send_events] at h
                  by_cases hc : s.fetch_response_channel
                  · simp [hc] at h
                    exact Or.inl ⟨_, h⟩
                  · simp [hc] at h
          | async c2 =>
              by_cases hw : s.io_waiter
              · simp [call_service_callback, InstanceState.io_waiter_err, hw] at h
                exact Or.inr ⟨c2, h⟩
              · simp [call_service_callback, InstanceState.io_waiter_err, hw] at h
      | inr h => exact ih _ _ h

theorem guardedBy_try_send (p : Ev → Bool) (w : TimerControl)
    (hp : ∀ v, p (Ev.sent v) = false) (s : InstanceState) (res : Sent)
    (c : Option TimerControl) :
    guardedBy p w c (s.try_send_fetch_response res).2.1 = true := by
  apply guardedBy_of_no_target
  intro e he
  rw [try_send_events] at he
  by_cases hc : s.fetch_response_channel
  · simp [hc] at he
    subst he
    exact hp res
  · simp [hc] at he

theorem guardedBy_epilogue (p : Ev → Bool) (w : TimerControl)
    (hp : ∀ v, p (Ev.sent v) = false) (s : InstanceState)
    (c : Option TimerControl) :
    guardedBy p w c (task_epilogue s).2 = true := by
  unfold task_epilogue
  exact guardedBy_try_send p w hp s _ c

theorem run_callback_no_target (p : Ev → Bool)
    (hp1 : ∀ v, p (Ev.sent v) = false) (hp2 : ∀ c2, p (Ev.issued c2) = false)
    (hp3 : p Ev.invoke = false) (s : InstanceState) (cb : CallbackRun) :
    ∀ e ∈ (run_callback s cb).2, p e = false := by
  intro e he
  rw [run_callback_events] at he
  rcases List.mem_cons.mp he with rfl | he2
  · exact hp3
  · rcases run_calls_events_shape cb.calls s e he2 with ⟨v, rfl⟩ | ⟨c3, rfl⟩
    · exact hp1 v
    · exact hp2 c3

theorem run_callback_no_timer (s : InstanceState) (cb : CallbackRun)
    (c : Option TimerControl) :
    lastTimerFrom c (run_callback s cb).2 = c := by
  apply lastTimerFrom_no_timer
  intro e he t2
  rw [run_callback_events] at he
  rcases List.mem_cons.mp he with rfl | he2
  · simp
  · rcases run_calls_events_shape cb.calls s e he2 with ⟨v, rfl⟩ | ⟨c3, rfl⟩ <;> simp

theorem drain_loop_guarded :
    ∀ (s : InstanceState) (ios : List (Option CallbackRun))
      (c : Option TimerControl),
      guardedBy Ev.isWaitEnter .stop c (drain_loop s ios).2.1 = true
      ∧ guardedBy Ev.isInvoke .start c (drain_loop s ios).2.1 = true := by
  intro s ios
  induction s, ios using drain_loop.induct with
  | case1 t s e hpe ht =>
      intro c
      rw [drain_loop_fatal_eq s t e hpe ht]
      exact ⟨guardedBy_try_send _ _ (fun v => rfl) s _ c,
        guardedBy_try_send _ _ (fun v => rfl) s _ c⟩
  | case2 t s e hpe ht =>
      intro c
      rw [drain_loop_recoverable_eq s t e hpe (by simpa using ht)]
      constructor
      · rw [guardedBy_append, Bool.and_eq_true]
        exact ⟨guardedBy_try_send _ _ (fun v => rfl) _ _ c,
          guardedBy_epilogue _ _ (fun v => rfl) _ _⟩
      · rw [guardedBy_append, Bool.and_eq_true]
        exact ⟨guardedBy_try_send _ _ (fun v => rfl) _ _ c,
          guardedBy_epilogue _ _ (fun v => rfl) _ _⟩
  | case3 t s hpe hd =>
      intro c
      rw [drain_loop_done_eq s t hpe hd]
      exact ⟨guardedBy_epilogue _ _ (fun v => rfl) _ _,
        guardedBy_epilogue _ _ (fun v => rfl) _ _⟩
  | case4 s hpe hd =>
      intro c
      rw [drain_loop_nil_eq s hpe (by simpa using hd)]
      constructor
      · simp [guardedBy, nextTimer, Ev.isWaitEnter]
      · simp [guardedBy, nextTimer, Ev.isInvoke]
  | case5 s hpe hd tail =>
      intro c
      rw [drain_loop_timeout_eq s tail hpe (by simpa using hd)]
      constructor
      · rw [guardedBy_append, Bool.and_eq_true]
        refine ⟨?p1, guardedBy_try_send _ _ (fun v => rfl) _ _ _⟩
        simp [guardedBy, nextTimer, Ev.isWaitEnter]
      · rw [guardedBy_append, Bool.and_eq_true]
        refine ⟨?p2, guardedBy_try_send _ _ (fun v => rfl) _ _ _⟩
        simp [guardedBy, nextTimer, Ev.isInvoke]
  | case6 s hpe hd cb rest r1 ih =>
      intro c
      rw [drain_loop_callback_eq s cb rest hpe (by simpa using hd)]
      rw [show r1 = run_callback s cb from rfl] at ih
      have hlast : ∀ c2 : Option TimerControl,
          lastTimerFrom c2 [Ev.timer .stop, Ev.ioWaitEnter, Ev.ioWaitExit true,
            Ev.timer .start] = some .start := by
        intro c2; rfl
      constructor
      · rw [guardedBy_append, guardedBy_append, Bool.and_eq_true, Bool.and_eq_true]
        refine ⟨?q1, ?q2, (ih _).1⟩
        · simp [guardedBy, nextTimer, Ev.isWaitEnter]
        · apply guardedBy_of_no_target
          apply run_callback_no_target
          · intro v; rfl
          · intro c2; rfl
          · rfl
      · rw [guardedBy_append, guardedBy_append, Bool.and_eq_true, Bool.and_eq_true]
        refine ⟨?q3, ?q4, (ih _).2⟩
        · simp [guardedBy, nextTimer, Ev.isInvoke]
        · rw [hlast, run_callback_events]
          rw [guardedBy, Bool.and_eq_true]
          constructor
          · rfl
          · apply guardedBy_of_no_target
            intro e he
            rcases run_calls_events_shape cb.calls s e he with ⟨v, rfl⟩ | ⟨c3, rfl⟩
            · rfl
            · rfl

theorem timerRunningFrom_of_stop :
    ∀ (a : List Ev) (r : Bool),
      lastTimerFrom none a = some .stop → timerRunningFrom r a = false := by
  intro a
  induction a using List.reverseRecOn with
  | nil =>
      intro r h
      simp [lastTimerFrom] at h
  | append_singleton xs e ih =>
      intro r h
      rw [lastTimerFrom, List.foldl_append, List.foldl_cons, List.foldl_nil] at h
      rw [timerRunningFrom, List.foldl_append, List.foldl_cons, List.foldl_nil]
      cases e with
      | timer t2 =>
          have h2 : t2 = TimerControl.stop := by
            simpa [nextTimer] using h
          subst h2
          rfl
      | sent v => exact ih r (by simpa [nextTimer] using h)
      | ioWaitEnter => exact ih r (by simpa [nextTimer] using h)
      | ioWaitExit b2 => exact ih r (by simpa [nextTimer] using h)
      | invoke => exact ih r (by simpa [nextTimer] using h)
      | issued c2 => exact ih r (by simpa [nextTimer] using h)

/- Claims. -/

/-- Claim C1: for every request, `InstanceHandle::fetch` returns
`Err(NoSuchWorker)` exactly when the send on the bounded task channel fails
(the instance has terminated), returns `Err(RuntimeThrowsException)` exactly
when the one-shot sender is dropped without a value having been sent, and
otherwise returns the received value.  The execution loop itself never sends
either of those two errors on the response channel, so they unambiguously
identify the two failure modes. -/
theorem C1_fetch_error_classification (send_ok : Bool) (recv : Option Sent)
    (hrecv : ∀ v, recv = some v → deliverable v = true) :
    (fetch send_ok recv = .error .noSuchWorker ↔ send_ok = false)
    ∧ (fetch send_ok recv = .error .runtimeThrowsException
        ↔ send_ok = true ∧ recv = none)
    ∧ (∀ v, recv = some v → send_ok = true → fetch send_ok recv = v)
    ∧ (∀ (s : InstanceState) (t : TaskSpec) (v : Sent),
        Ev.sent v ∈ (run_task s t).2.1 → deliverable v = true) := by
  refine ⟨?i1, ?i2, ?i3, run_task_mem_sent⟩
  · cases send_ok
    · simp [fetch]
    · cases recv with
      | none => simp [fetch]
      | some v =>
          have h := (deliverable_ne (hrecv v rfl)).1
          simpa [fetch] using h
  · cases send_ok
    · simp [fetch]
    · cases recv with
      | none => simp [fetch]
      | some v =>
          have h := (deliverable_ne (hrecv v rfl)).2
          simpa [fetch] using h
  · intro v hv hs
    subst hv
    subst hs
    simp [fetch]

theorem C1_fetch_error_classification_witness :
    fetch true none = .error .runtimeThrowsException :=
  ((C1_fetch_error_classification true none (fun _ h => nomatch h)).2.1).mpr
    ⟨rfl, rfl⟩

/-- Claim C2: exception classification in the drain loop.  A pending
exception flagged as worker-terminating is delivered as the fetch response
(through `try_send_fetch_response`) and the loop ends with a fatal
`Execution` error.  A non-terminating exception leaves the loop in the ready
state with the exception cleared, after delivering the error as the fetch
response; the outer loop then proceeds to the next task on the same
instance. -/
theorem C2_exception_classification (s : InstanceState)
    (ios : List (Option CallbackRun)) (e : TaskError)
    (hpe : s.pendingException = some e) :
    (e.terminatesWorker = true →
        (drain_loop s ios).2.2 = .fatal e.toExecutionError
        ∧ (drain_loop s ios).2.1
            = (s.try_send_fetch_response (.error e.toExecutionError)).2.1)
    ∧ (e.terminatesWorker = false →
        (drain_loop s ios).2.2 = .ready
        ∧ (drain_loop s ios).1.pendingException = none
        ∧ (drain_loop s ios).2.1
            = (InstanceState.try_send_fetch_response
                { s with pendingException := none }
                (.error e.toExecutionError)).2.1)
    ∧ (s.fetch_response_channel = true →
        sentValues (drain_loop s ios).2.1 = [.error e.toExecutionError])
    ∧ (∀ (s0 : InstanceState) (t : TaskSpec) (rest : List (Option TaskSpec)),
        (run_task (ready_prelude s0).1 t).2.2 = .ready →
        (instance_loop s0 (some t :: rest)).2.2
          = (instance_loop (run_task (ready_prelude s0).1 t).1 rest).2.2) := by
  refine ⟨?f1, ?f2, ?f3, ?f4⟩
  · intro ht
    rw [drain_loop_fatal_eq s ios e hpe ht]
    exact ⟨rfl, rfl⟩
  · intro ht
    rw [drain_loop_recoverable_eq s ios e hpe ht]
    refine ⟨rfl, ?p2, ?p3⟩
    · rw [task_epilogue_state, try_send_state]
    · rw [task_epilogue_events, try_send_state]
      simp
  · intro hch
    cases ht : e.terminatesWorker
    · rw [drain_loop_recoverable_eq s ios e hpe ht]
      rw [task_epilogue_events, try_send_state]
      simp [try_send_events, hch, sentValues]
    · rw [drain_loop_fatal_eq s ios e hpe ht]
      simp [try_send_events, hch, sentValues]
  · intro s0 t rest hr
    rw [instance_loop, hr]

theorem C2_exception_classification_witness :
    (drain_loop ⟨true, false, true, some .timeLimit⟩ []).2.2
      = .fatal .timeLimitExceeded :=
  ((C2_exception_classification ⟨true, false, true, some .timeLimit⟩
      [] .timeLimit rfl).1 rfl).1

/-- Claim C3: the near-heap-limit callback.  On a first trigger (guard
unset) it sets the double-trigger guard, records termination reason
MemoryLimit, and requests forced termination; on a repeated trigger it
changes nothing; in both cases it returns
`current_heap_limit + SAFE_AREA_SIZE` with `SAFE_AREA_SIZE = 1048576`
(1 MiB). -/
theorem C3_memory_limit_callback (s : MemIsolateState) (limit : Nat) :
    (s.triggered_mle = false →
        (on_memory_limit_exceeded s limit).1
          = { triggered_mle := true, termination_reason := .memoryLimit,
              termination_requested := true })
    ∧ (s.triggered_mle = true → (on_memory_limit_exceeded s limit).1 = s)
    ∧ (on_memory_limit_exceeded s limit).2 = limit + SAFE_AREA_SIZE
    ∧ SAFE_AREA_SIZE = 1048576 := by
  refine ⟨?m1, ?m2, ?m3, rfl⟩
  · intro h
    cases s with
    | mk a b c2 =>
        simp only at h
        subst h
        rfl
  · intro h
    cases s with
    | mk a b c2 =>
        simp only at h
        subst h
        rfl
  · cases s with
    | mk a b c2 => cases a <;> rfl

theorem C3_memory_limit_callback_witness :
    (on_memory_limit_exceeded
        { triggered_mle := false, termination_reason := .unknown,
          termination_requested := false } 7).1
      = { triggered_mle := true, termination_reason := .memoryLimit,
          termination_requested := true } :=
  (C3_memory_limit_callback
    { triggered_mle := false, termination_reason := .unknown,
      termination_requested := false } 7).1 rfl

/-- Claim C4: when `IoWaiter::wait` returns `None` (the per-task I/O timeout
elapsed), the drain loop sends `Err(IoTimeout)` on the pending fetch
response channel if one is still held, then ends with a fatal `IoTimeout`
error; a fatal task outcome makes the outer loop return an `Execution`
error without processing any further task. -/
theorem C4_io_timeout_fatal (s : InstanceState)
    (rest : List (Option CallbackRun))
    (hpe : s.pendingException = none) (hd : s.done = false) :
    (drain_loop s (none :: rest)).2.2 = .fatal .ioTimeout
    ∧ (drain_loop s (none :: rest)).2.1
        = [Ev.timer .stop, Ev.ioWaitEnter, Ev.ioWaitExit false]
          ++ (s.try_send_fetch_response (.error .ioTimeout)).2.1
    ∧ (s.fetch_response_channel = true →
        sentValues (drain_loop s (none :: rest)).2.1 = [.error .ioTimeout])
    ∧ (∀ (s0 : InstanceState) (t : TaskSpec)
        (rest2 : List (Option TaskSpec)) (e : ExecutionError),
        (run_task (ready_prelude s0).1 t).2.2 = .fatal e →
        (instance_loop s0 (some t :: rest2)).2.2 = .execError e) := by
  refine ⟨?o1, ?o2, ?o3, ?o4⟩
  · rw [drain_loop_timeout_eq s rest hpe hd]
  · rw [drain_loop_timeout_eq s rest hpe hd]
  · intro hch
    rw [drain_loop_timeout_eq s rest hpe hd]
    simp [try_send_events, hch, sentValues]
  · intro s0 t rest2 e hr
    rw [instance_loop, hr]

theorem C4_io_timeout_fatal_witness :
    (drain_loop ⟨true, false, true, none⟩ [none]).2.2 = .fatal .ioTimeout :=
  (C4_io_timeout_fatal ⟨true, false, true, none⟩ [] rfl rfl).1

/-- Claim C5: when the drain loop exits with the done flag set and no
response yet sent (the sender still held), it sends the synthesized default
response with status 500 (all other fields at their defaults) and returns to
the ready state. -/
theorem C5_done_sends_default_500 (s : InstanceState)
    (ios : List (Option CallbackRun))
    (hpe : s.pendingException = none) (hd : s.done = true)
    (hch : s.fetch_response_channel = true) :
    drain_loop s ios
      = ({ s with fetch_response_channel := false },
         [Ev.sent (.ok default_500_response)], .ready)
    ∧ default_500_response.status = 500
    ∧ default_500_response.headers = ResponseObject.defaultObj.headers
    ∧ default_500_response.body = ResponseObject.defaultObj.body := by
  refine ⟨?d1, rfl, rfl, rfl⟩
  rw [drain_loop_done_eq s ios hpe hd, task_epilogue_state, task_epilogue_events]
  simp [hch]

theorem C5_done_sends_default_500_witness :
    drain_loop ⟨true, true, true, none⟩ []
      = (⟨true, true, false, none⟩,
         [Ev.sent (.ok default_500_response)], .ready) :=
  (C5_done_sends_default_500 ⟨true, true, true, none⟩ [] rfl rfl rfl).1

/-- Claim C6: the `SendFetchResponse` host call delivers its response over
the pending one-shot sender when one is held, is a no-op when the sender has
already been consumed, and calling it twice in one task has exactly the same
effect (on the state and on the caller-visible channel events) as calling it
once with the first response. -/
theorem C6_send_fetch_response_idempotent (s : InstanceState)
    (r1 r2 : ResponseObject) :
    (s.fetch_response_channel = true →
        call_service_callback s (.sync (.sendFetchResponse r1))
          = ({ s with fetch_response_channel := false },
             [Ev.sent (.ok r1)], none))
    ∧ (s.fetch_response_channel = false →
        call_service_callback s (.sync (.sendFetchResponse r1)) = (s, [], none))
    ∧ run_calls s [.sync (.sendFetchResponse r1), .sync (.sendFetchResponse r2)]
        = run_calls s [.sync (.sendFetchResponse r1)] := by
  refine ⟨?s1, ?s2, ?s3⟩
  · intro hch
    simp [call_service_callback, InstanceState.try_send_fetch_response, hch]
  · intro hch
    simp [call_service_callback, InstanceState.try_send_fetch_response, hch]
  · by_cases hch : s.fetch_response_channel <;>
      simp [run_calls, call_service_callback,
        InstanceState.try_send_fetch_response, hch]

theorem C6_send_fetch_response_idempotent_witness :
    call_service_callback ⟨true, false, true, none⟩
        (.sync (.sendFetchResponse default_500_response))
      = (⟨true, false, false, none⟩,
         [Ev.sent (.ok default_500_response)], none) :=
  (C6_send_fetch_response_idempotent ⟨true, false, true, none⟩
    default_500_response default_500_response).1 rfl

/-- Claim C7: an asynchronous host call made through `_callService` while no
I/O waiter is installed (outside a task's lifetime) fails with the
script-visible host error "io service not available": the state is
unchanged and no call is issued. -/
theorem C7_async_requires_io_waiter (s : InstanceState) (c : AsyncCall)
    (h : s.io_waiter = false) :
    call_service_callback s (.async c)
      = (s, [], some "io service not available")
    ∧ s.io_waiter_err = some "io service not available" := by
  constructor <;> simp [call_service_callback, InstanceState.io_waiter_err, h]

theorem C7_async_requires_io_waiter_witness :
    call_service_callback ⟨false, false, true, none⟩ (.async "kvGet")
      = (⟨false, false, true, none⟩, [],
         some "io service not available") :=
  (C7_async_requires_io_waiter ⟨false, false, true, none⟩ "kvGet" rfl).1

/-- Claim C8: timer discipline of the drain loop.  Along every event trace
the loop emits, a Stop timer signal is the most recent timer signal whenever
the thread enters the blocking wait, and a Start signal is the most recent
whenever a retrieved callback is invoked; hence the budget timer is never in
the started state while the thread is blocked on I/O, whatever its prior
running state. -/
theorem C8_timer_stopped_during_io_wait (s : InstanceState)
    (ios : List (Option CallbackRun)) (c : Option TimerControl) :
    guardedBy Ev.isWaitEnter .stop c (drain_loop s ios).2.1 = true
    ∧ guardedBy Ev.isInvoke .start c (drain_loop s ios).2.1 = true
    ∧ (∀ (a b : List Ev) (r : Bool),
        (drain_loop s ios).2.1 = a ++ Ev.ioWaitEnter :: b →
        lastTimerFrom none a = some .stop ∧ timerRunningFrom r a = false)
    ∧ (∀ (a b : List Ev),
        (drain_loop s ios).2.1 = a ++ Ev.invoke :: b →
        lastTimerFrom none a = some .start) := by
  refine ⟨(drain_loop_guarded s ios c).1, (drain_loop_guarded s ios c).2,
    ?w3, ?w4⟩
  · intro a b r heq
    have hstop := (guardedBy_eq_true_iff Ev.isWaitEnter .stop
        (drain_loop s ios).2.1 none).mp
      (drain_loop_guarded s ios none).1 a Ev.ioWaitEnter b heq rfl
    exact ⟨hstop, timerRunningFrom_of_stop a r hstop⟩
  · intro a b heq
    exact (guardedBy_eq_true_iff Ev.isInvoke .start
        (drain_loop s ios).2.1 none).mp
      (drain_loop_guarded s ios none).2 a Ev.invoke b heq rfl

theorem C8_timer_stopped_during_io_wait_witness :
    lastTimerFrom none [Ev.timer .stop] = some .stop
    ∧ timerRunningFrom true [Ev.timer .stop] = false :=
  (C8_timer_stopped_during_io_wait ⟨true, false, true, none⟩
      [some ⟨[], none⟩] none).2.2.1
    [Ev.timer .stop]
    [Ev.ioWaitExit true, Ev.timer .start, Ev.invoke, Ev.timer .stop,
      Ev.ioWaitEnter]
    true rfl

/-- Claim C9: if the `_dispatchEvent` lookup or its conversion to a function
fails after a task has been accepted, `run` returns an `Other` error without
sending anything on the already-recorded response channel; the sender is
then dropped with the instance, so the waiting `fetch` caller observes
`Err(RuntimeThrowsException)`. -/
theorem C9_dispatch_failure_other_error (s : InstanceState) (t : TaskSpec)
    (h : t.dispatch_found = false ∨ t.dispatch_is_function = false) :
    (∃ m, (run_task s t).2.2 = Outcome.otherError m)
    ∧ sentValues (run_task s t).2.1 = []
    ∧ (run_task s t).1.fetch_response_channel = true
    ∧ fetch true none = .error .runtimeThrowsException := by
  have hmain : ∃ m, run_task s t
      = ({ s with io_waiter := true, fetch_response_channel := true },
         [Ev.timer .start], Outcome.otherError m) := by
    rcases h with h | h
    · exact ⟨"check failed", by simp [run_task, h, populate_with_task]⟩
    · by_cases hf : t.dispatch_found
      · exact ⟨"bad _dispatchEvent",
          by simp [run_task, hf, h, populate_with_task]⟩
      · exact ⟨"check failed",
          by simp [run_task, eq_false_of_ne_true hf, populate_with_task]⟩
  obtain ⟨m, hm⟩ := hmain
  refine ⟨⟨m, by rw [hm]⟩, by rw [hm]; rfl, by rw [hm], rfl⟩

theorem C9_dispatch_failure_other_error_witness :
    sentValues (run_task ⟨false, false, false, none⟩
      ⟨false, true, ⟨[], none⟩, []⟩).2.1 = [] :=
  (C9_dispatch_failure_other_error ⟨false, false, false, none⟩
    ⟨false, true, ⟨[], none⟩, []⟩ (Or.inl rfl)).2.1

/-- Claim C10: for every task, at most one value is ever sent on its
one-shot response channel: the number of sends plus the left-over sender
weight is exactly one, every delivery goes through
`try_send_fetch_response`, which always leaves the state without a sender,
and the drain loop preserves the sends-plus-weight accounting. -/
theorem C10_at_most_one_response_per_task (s : InstanceState) (t : TaskSpec) :
    sentCount (run_task s t).2.1 + chanWeight (run_task s t).1 = 1
    ∧ sentCount (run_task s t).2.1 ≤ 1
    ∧ (∀ (s2 : InstanceState) (res : Sent),
        (s2.try_send_fetch_response res).1.fetch_response_channel = false)
    ∧ (∀ (s3 : InstanceState) (ios : List (Option CallbackRun)),
        chanWeight s3 = sentCount (drain_loop s3 ios).2.1
          + chanWeight (drain_loop s3 ios).1) := by
  have h := run_task_weight s t
  refine ⟨h, by omega, ?t3, drain_loop_weight⟩
  intro s2 res
  rw [try_send_state]

end RustyWorkers
